import Mathlib

/-!
Verification of the semcs benchmark evaluation core.

This file gives a shallow embedding, in Lean 4, of the two modules that
make up the repository's evaluation core, and proves the specified
properties about them:

* `benchmarks/quantitative/eval/metrics.py` — the Metric Engine
  (namespace `Metrics` below): pure information-retrieval metrics over a
  ranked result list and a relevance judgment set.
* `benchmarks/automation/test_runner.py` — the Aggregation Engine
  (namespace `Runner` below): per-task comparison records and the summary
  report over a batch of tasks.

Modelling conventions:
* Python float values are modelled exactly.  Every quantity in the source
  is produced by field operations on integers and input floats, so it is
  modelled in `ℚ`; the only exception is the DCG family, which divides by
  `np.log2` and is therefore modelled in `ℝ` with `Real.logb 2`.
* Python division is exact field division here; the sources guard every
  denominator themselves except `1.0 / result.rank` (Lean's `1 / 0 = 0`
  convention is unreachable for the rank-positive inputs considered).
* Python dicts are modelled as association lists (`all_results`, which is
  iterated) or as total functions with a default (`relevance_judgments`,
  which is only read through `.get(key, set())`).
* A function raising an exception is modelled with `Except`; the only
  such boundary relevant here is an agent's `execute_task` call inside
  `TestRunner.run_single_task`.
-/

namespace Metrics

/-- Mirrors the `SearchResult` dataclass of `metrics.py`: a single search
result with a document identifier, a score, a 1-based rank and a relevance
flag defaulting to false. -/
structure SearchResult where
  doc_id : String
  score : ℚ
  rank : ℕ
  relevant : Bool := false
deriving DecidableEq, Repr

/-- Mirrors the `EvaluationResult` dataclass of `metrics.py`: the complete
metric bundle for one query.  The nDCG field lives in `ℝ` because its
computation divides by base-2 logarithms; every other field is an exact
rational. -/
structure EvaluationResult where
  query_id : String
  precision_at_1 : ℚ
  precision_at_5 : ℚ
  precision_at_10 : ℚ
  recall_at_10 : ℚ
  mrr : ℚ
  ndcg_at_10 : ℝ
  average_precision : ℚ

/-- Mirrors `precision_at_k` of `metrics.py`: the number of relevant
results among the first k, divided by k; 0.0 when the list is empty or
k is 0. -/
def precision_at_k (results : List SearchResult) (k : ℕ) : ℚ :=
  if results = [] ∨ k = 0 then 0
  else ((results.take k).countP (fun r => r.relevant) : ℚ) / (k : ℚ)

/-- Mirrors `recall_at_k` of `metrics.py`: the number of relevant results
among the first k, divided by total_relevant; 0.0 when the list is empty,
k is 0 or total_relevant is 0. -/
def recall_at_k (results : List SearchResult) (k : ℕ) (total_relevant : ℕ) : ℚ :=
  if results = [] ∨ k = 0 ∨ total_relevant = 0 then 0
  else ((results.take k).countP (fun r => r.relevant) : ℚ) / (total_relevant : ℚ)

/-- Mirrors `mean_reciprocal_rank` of `metrics.py`: scanning the list in
order, return 1.0 divided by the stored rank field of the first relevant
result; 0.0 when the list is empty or holds no relevant result. -/
def mean_reciprocal_rank : List SearchResult → ℚ
  | [] => 0
  | r :: rs => if r.relevant then 1 / (r.rank : ℚ) else mean_reciprocal_rank rs

/-- Loop body of `discounted_cumulative_gain`: the enumeration
`for i, result in enumerate(results[:k], start=1)` adding
`relevance / np.log2(i + 1)` at each step, with `i` the 1-based position
within the truncated window. -/
noncomputable def dcgAux : List SearchResult → ℕ → ℝ
  | [], _ => 0
  | r :: rs, i =>
      (if r.relevant then (1 : ℝ) else 0) / Real.logb 2 ((i : ℝ) + 1) + dcgAux rs (i + 1)

/-- Mirrors `discounted_cumulative_gain` of `metrics.py`: DCG over the
first k results, discounting the i-th item of the truncated window by
log2(i + 1); 0.0 when the list is empty or k is 0. -/
noncomputable def discounted_cumulative_gain (results : List SearchResult) (k : ℕ) : ℝ :=
  if results = [] ∨ k = 0 then 0 else dcgAux (results.take k) 1

/-- Mirrors the `ideal_results` list built inside `normalized_dcg`:
min(k, total_relevant) perfectly relevant synthetic items at ranks
1..min(k, total_relevant). -/
def ideal_results (k total_relevant : ℕ) : List SearchResult :=
  (List.range' 1 (min k total_relevant)).map
    (fun i => { doc_id := "ideal_" ++ toString i, score := 1, rank := i, relevant := true })

open scoped Classical in
/-- Mirrors `normalized_dcg` of `metrics.py`: actual DCG@k divided by the
ideal DCG@k over the synthetic perfect ranking; 0.0 when the list is
empty, k is 0, total_relevant is 0, or the ideal DCG is 0. -/
noncomputable def normalized_dcg (results : List SearchResult) (k total_relevant : ℕ) : ℝ :=
  if results = [] ∨ k = 0 ∨ total_relevant = 0 then 0
  else
    let actual_dcg := discounted_cumulative_gain results k
    let ideal_dcg := discounted_cumulative_gain (ideal_results k total_relevant) k
    if ideal_dcg = 0 then 0 else actual_dcg / ideal_dcg

/-- Loop body of `average_precision`: scanning with 1-based position `i`
and running count `cnt` of relevant results seen so far, each relevant
result adds (cnt + 1) / i. -/
def apAux : List SearchResult → ℕ → ℕ → ℚ
  | [], _, _ => 0
  | r :: rs, i, cnt =>
      if r.relevant then ((cnt + 1 : ℕ) : ℚ) / (i : ℚ) + apAux rs (i + 1) (cnt + 1)
      else apAux rs (i + 1) cnt

/-- Mirrors `average_precision` of `metrics.py`: the sum over relevant
results of the precision at their position, divided by total_relevant;
0.0 when the list is empty or total_relevant is 0. -/
def average_precision (results : List SearchResult) (total_relevant : ℕ) : ℚ :=
  if results = [] ∨ total_relevant = 0 then 0
  else apAux results 1 0 / (total_relevant : ℚ)

/-- Mirrors the marking comprehension shared by `mean_average_precision`
and `evaluate_query`: rebuild each result with its relevance flag set by
membership of its identifier in the judgment set. -/
def markResults (results : List SearchResult) (relevant_docs : Finset String) :
    List SearchResult :=
  results.map (fun r =>
    { doc_id := r.doc_id, score := r.score, rank := r.rank,
      relevant := decide (r.doc_id ∈ relevant_docs) })

/-- Loop body of `mean_average_precision`: walk the query/result pairs in
order, skip a query whose judgment set is empty, and otherwise append the
average precision of its marked results. -/
def mapAux (judgments : String → Finset String) :
    List (String × List SearchResult) → List ℚ
  | [] => []
  | q :: rest =>
      let relevant_docs := judgments q.1
      if relevant_docs = ∅ then mapAux judgments rest
      else
        average_precision (markResults q.2 relevant_docs) relevant_docs.card ::
          mapAux judgments rest

/-- Mirrors `mean_average_precision` of `metrics.py`: the mean of the
per-query average precisions over queries with a non-empty judgment set;
0.0 when there are no queries or no such query.  The judgments dict is
read only through `.get(query_id, set())`, so it is modelled as a total
function into `Finset String` with the empty set standing for an absent
key. -/
def mean_average_precision (all_results : List (String × List SearchResult))
    (relevance_judgments : String → Finset String) : ℚ :=
  if all_results = [] then 0
  else
    let ap_scores := mapAux relevance_judgments all_results
    if ap_scores = [] then 0 else ap_scores.sum / (ap_scores.length : ℚ)

/-- Mirrors `evaluate_query` of `metrics.py`: mark the results against the
judgment set and assemble the full metric bundle, taking the query id from
the first result or the sentinel "unknown" for an empty list. -/
noncomputable def evaluate_query (results : List SearchResult)
    (relevant_docs : Finset String) : EvaluationResult :=
  let marked_results := markResults results relevant_docs
  let total_relevant := relevant_docs.card
  { query_id := match results with | [] => "unknown" | r :: _ => r.doc_id
    precision_at_1 := precision_at_k marked_results 1
    precision_at_5 := precision_at_k marked_results 5
    precision_at_10 := precision_at_k marked_results 10
    recall_at_10 := recall_at_k marked_results 10 total_relevant
    mrr := mean_reciprocal_rank marked_results
    ndcg_at_10 := normalized_dcg marked_results 10 total_relevant
    average_precision := average_precision marked_results total_relevant }

/-- Mirrors `semantic_recall` of `metrics.py`. -/
def semantic_recall (semantic_matches ground_truth : Finset String) : ℚ :=
  if ground_truth = ∅ then 0
  else ((semantic_matches ∩ ground_truth).card : ℚ) / (ground_truth.card : ℚ)

/-- Mirrors `ast_precision` of `metrics.py`. -/
def ast_precision (ast_matches ground_truth : Finset String) : ℚ :=
  if ast_matches = ∅ then 0
  else ((ast_matches ∩ ground_truth).card : ℚ) / (ast_matches.card : ℚ)

/-- Mirrors `hybrid_fusion_gain` of `metrics.py`: the relative improvement
of the hybrid score over the best of the three single-method scores; 0.0
when that best score is 0. -/
def hybrid_fusion_gain (hybrid_score semantic_score lexical_score : ℚ)
    (ast_score : ℚ := 0) : ℚ :=
  let best_single := max semantic_score (max lexical_score ast_score)
  if best_single = 0 then 0 else (hybrid_score - best_single) / best_single

/-- Mirrors `calculate_f1_score` of `metrics.py`.  The second parameter is
written with guillemets because Mathlib reserves the bare word as a
command token. -/
def calculate_f1_score (precision «recall» : ℚ) : ℚ :=
  if precision + «recall» = 0 then 0
  else 2 * (precision * «recall») / (precision + «recall»)

/-- Well-formedness predicate on the stored rank fields, from the input
contract: ranks ascending and contiguous counting from the given start
value (the contract instantiates the start at 1, i.e. rank = 1-based list
position). -/
def ranksFrom : List SearchResult → ℕ → Bool
  | [], _ => true
  | r :: rs, n => r.rank == n && ranksFrom rs (n + 1)

end Metrics

namespace Runner

/-- Mirrors the fields of a task dict that `TestRunner.run_single_task`
reads: the mandatory id (subscripted directly) and the optional category
and difficulty (read with dict defaults). -/
structure Task where
  id : String
  category : Option String := none
  difficulty : Option String := none
deriving DecidableEq, Repr

/-- Mirrors the agent run record consumed by
`TestRunner.run_single_task`: the attributes of the object returned by an
agent's `execute_task`. -/
structure AgentRunRecord where
  total_calls : ℕ
  total_output_tokens : ℕ
  total_duration : ℚ
  precision : ℚ
  «recall» : ℚ
  success : Bool
deriving DecidableEq, Repr

/-- Mirrors the `ComparisonMetrics` dataclass of `test_runner.py`. -/
structure ComparisonMetrics where
  task_id : String
  task_category : String
  task_difficulty : String
  baseline_calls : ℕ
  baseline_tokens : ℕ
  baseline_duration : ℚ
  baseline_precision : ℚ
  baseline_recall : ℚ
  baseline_success : Bool
  cs_calls : ℕ
  cs_tokens : ℕ
  cs_duration : ℚ
  cs_precision : ℚ
  cs_recall : ℚ
  cs_success : Bool
  call_reduction_pct : ℚ
  token_reduction_pct : ℚ
  time_reduction_pct : ℚ
  precision_improvement : ℚ
  recall_improvement : ℚ
deriving DecidableEq, Repr

/-- Mirrors the comparison arithmetic of `TestRunner.run_single_task`,
taking the two already-produced agent run records: the three percentage
reductions each guard a zero denominator by yielding 0.0, and the
precision/recall improvements are plain differences. -/
def run_single_task (task : Task) (baseline_run cs_run : AgentRunRecord) :
    ComparisonMetrics :=
  let call_reduction : ℚ :=
    if baseline_run.total_calls > 0 then
      ((baseline_run.total_calls : ℚ) - (cs_run.total_calls : ℚ)) /
        (baseline_run.total_calls : ℚ) * 100
    else 0
  let token_reduction : ℚ :=
    if baseline_run.total_output_tokens > 0 then
      ((baseline_run.total_output_tokens : ℚ) - (cs_run.total_output_tokens : ℚ)) /
        (baseline_run.total_output_tokens : ℚ) * 100
    else 0
  let time_reduction : ℚ :=
    if baseline_run.total_duration > 0 then
      (baseline_run.total_duration - cs_run.total_duration) /
        baseline_run.total_duration * 100
    else 0
  { task_id := task.id
    task_category := task.category.getD "unknown"
    task_difficulty := task.difficulty.getD "medium"
    baseline_calls := baseline_run.total_calls
    baseline_tokens := baseline_run.total_output_tokens
    baseline_duration := baseline_run.total_duration
    baseline_precision := baseline_run.precision
    baseline_recall := baseline_run.«recall»
    baseline_success := baseline_run.success
    cs_calls := cs_run.total_calls
    cs_tokens := cs_run.total_output_tokens
    cs_duration := cs_run.total_duration
    cs_precision := cs_run.precision
    cs_recall := cs_run.«recall»
    cs_success := cs_run.success
    call_reduction_pct := call_reduction
    token_reduction_pct := token_reduction
    time_reduction_pct := time_reduction
    precision_improvement := cs_run.precision - baseline_run.precision
    recall_improvement := cs_run.«recall» - baseline_run.«recall» }

/-- Mirrors one iteration of the loop in `TestRunner.run_all_tasks`: an
agent's `execute_task` may raise, modelled with `Except`; when both agent
calls return, the comparison record is assembled by `run_single_task`. -/
def runTaskWithAgents (baseline_agent cs_agent : Task → Except String AgentRunRecord)
    (task : Task) : Except String ComparisonMetrics := do
  let baseline_run ← baseline_agent task
  let cs_run ← cs_agent task
  pure (run_single_task task baseline_run cs_run)

/-- Mirrors `TestRunner.run_all_tasks`: slice the task list when a
non-zero cap is given (the Python guard on the cap is truthiness, so a
cap of 0 also means all tasks), then run every task in order, catching a
task's exception and skipping it without aborting the batch. -/
def run_all_tasks (baseline_agent cs_agent : Task → Except String AgentRunRecord)
    (tasks : List Task) (max_tasks : Option ℕ) : List ComparisonMetrics :=
  let tasks_to_run :=
    match max_tasks with
    | some m => if m = 0 then tasks else tasks.take m
    | none => tasks
  tasks_to_run.filterMap (fun t => (runTaskWithAgents baseline_agent cs_agent t).toOption)

/-- Mirrors `statistics.mean` on a list of floats.  Callers in
`generate_summary_report` only reach it with a non-empty list. -/
def mean (l : List ℚ) : ℚ := l.sum / (l.length : ℚ)

/-- Mirrors `statistics.median` on a list of floats: middle element of the
sorted list for odd length, average of the two middle elements for even
length.  Callers only reach it with a non-empty list. -/
def median (l : List ℚ) : ℚ :=
  let s := l.mergeSort (fun a b => a ≤ b)
  if l.length % 2 = 1 then s.getD (l.length / 2) 0
  else (s.getD (l.length / 2 - 1) 0 + s.getD (l.length / 2) 0) / 2

/-- Mirrors one value of the by-category dict of
`TestRunner.generate_summary_report`. -/
structure CategorySummary where
  count : ℕ
  avg_call_reduction : ℚ
  avg_token_reduction : ℚ
  cs_success_rate : ℚ
deriving DecidableEq, Repr

/-- Mirrors the summary dict assembled by
`TestRunner.generate_summary_report`, with the nested dicts flattened
into named fields and the by-category dict modelled as a partial map from
category names. -/
structure SummaryReport where
  total_tasks : ℕ
  avg_call_reduction_pct : ℚ
  median_call_reduction_pct : ℚ
  avg_token_reduction_pct : ℚ
  median_token_reduction_pct : ℚ
  avg_time_reduction_pct : ℚ
  baseline_success_rate : ℚ
  cs_success_rate : ℚ
  success_improvement : ℚ
  baseline_precision : ℚ
  cs_precision : ℚ
  baseline_recall : ℚ
  cs_recall : ℚ
  precision_improvement : ℚ
  recall_improvement : ℚ
  by_category : String → Option CategorySummary

/-- Mirrors `TestRunner.generate_summary_report`: an empty record list
yields the empty dict (modelled `none`); otherwise every statistic is
computed over the full record list, and the by-category breakdown
restricts the same statistics to the records sharing a category. -/
def generate_summary_report (results : List ComparisonMetrics) : Option SummaryReport :=
  if results = [] then none
  else some
    { total_tasks := results.length
      avg_call_reduction_pct := mean (results.map (fun m => m.call_reduction_pct))
      median_call_reduction_pct := median (results.map (fun m => m.call_reduction_pct))
      avg_token_reduction_pct := mean (results.map (fun m => m.token_reduction_pct))
      median_token_reduction_pct := median (results.map (fun m => m.token_reduction_pct))
      avg_time_reduction_pct := mean (results.map (fun m => m.time_reduction_pct))
      baseline_success_rate :=
        ((results.countP (fun m => m.baseline_success)) : ℚ) / (results.length : ℚ)
      cs_success_rate :=
        ((results.countP (fun m => m.cs_success)) : ℚ) / (results.length : ℚ)
      success_improvement :=
        (((results.countP (fun m => m.cs_success)) : ℚ) -
          ((results.countP (fun m => m.baseline_success)) : ℚ)) / (results.length : ℚ)
      baseline_precision := mean (results.map (fun m => m.baseline_precision))
      cs_precision := mean (results.map (fun m => m.cs_precision))
      baseline_recall := mean (results.map (fun m => m.baseline_recall))
      cs_recall := mean (results.map (fun m => m.cs_recall))
      precision_improvement :=
        mean (results.map (fun m => m.cs_precision)) -
          mean (results.map (fun m => m.baseline_precision))
      recall_improvement :=
        mean (results.map (fun m => m.cs_recall)) -
          mean (results.map (fun m => m.baseline_recall))
      by_category := fun cat =>
        let ms := results.filter (fun m => m.task_category = cat)
        if ms = [] then none
        else some
          { count := ms.length
            avg_call_reduction := mean (ms.map (fun m => m.call_reduction_pct))
            avg_token_reduction := mean (ms.map (fun m => m.token_reduction_pct))
            cs_success_rate :=
              ((ms.countP (fun m => m.cs_success)) : ℚ) / (ms.length : ℚ) } }

end Runner

namespace Metrics

/-! Helper lemmas about the Metric Engine. -/

lemma precision_at_k_eq (results : List SearchResult) (k : ℕ) :
    precision_at_k results k =
      ((results.take k).countP (fun r => r.relevant) : ℚ) / (k : ℚ) := by
  unfold precision_at_k
  split
  · rename_i h
    rcases h with h | h
    · subst h; simp
    · subst h; simp
  · rfl

lemma precision_at_k_nonneg (results : List SearchResult) (k : ℕ) :
    0 ≤ precision_at_k results k := by
  rw [precision_at_k_eq]
  positivity

lemma precision_at_k_le_one (results : List SearchResult) (k : ℕ) :
    precision_at_k results k ≤ 1 := by
  rcases Nat.eq_zero_or_pos k with hk | hk
  · subst hk; rw [precision_at_k_eq]; simp
  · rw [precision_at_k_eq, div_le_one (by exact_mod_cast hk)]
    have h1 : (results.take k).countP (fun r => r.relevant) ≤ k :=
      le_trans (List.countP_le_length _) (List.length_take_le k results)
    exact_mod_cast h1

lemma recall_at_k_nonneg (results : List SearchResult) (k total_relevant : ℕ) :
    0 ≤ recall_at_k results k total_relevant := by
  unfold recall_at_k
  split
  · exact le_refl 0
  · positivity

lemma countP_take_mono (p : SearchResult → Bool) (l : List SearchResult)
    {k1 k2 : ℕ} (h : k1 ≤ k2) :
    (l.take k1).countP p ≤ (l.take k2).countP p := by
  have h1 : l.take k1 = (l.take k2).take k1 := by
    rw [List.take_take, inf_eq_left.mpr h]
  rw [h1]
  exact (List.take_sublist _ _).countP_le p

lemma recall_at_k_mono (results : List SearchResult) (total_relevant : ℕ)
    {k1 k2 : ℕ} (hk : k1 ≤ k2) :
    recall_at_k results k1 total_relevant ≤ recall_at_k results k2 total_relevant := by
  by_cases he : results = [] ∨ k1 = 0 ∨ total_relevant = 0
  · have h0 : recall_at_k results k1 total_relevant = 0 := by
      unfold recall_at_k
      rw [if_pos he]
    rw [h0]
    exact recall_at_k_nonneg results k2 total_relevant
  · push_neg at he
    obtain ⟨hne, hk1, htr⟩ := he
    have hk2 : k2 ≠ 0 := by omega
    unfold recall_at_k
    rw [if_neg (by simp [hne, hk1, htr]), if_neg (by simp [hne, hk2, htr])]
    have htr' : (0 : ℚ) < (total_relevant : ℚ) := by
      exact_mod_cast Nat.pos_of_ne_zero htr
    have hcount : ((results.take k1).countP (fun r => r.relevant) : ℚ) ≤
        ((results.take k2).countP (fun r => r.relevant) : ℚ) := by
      exact_mod_cast countP_take_mono _ results hk
    exact div_le_div_of_nonneg_right hcount htr'.le |>.trans_eq rfl

end Metrics

/-- C6: for every result list and every k, precision_at_k equals the number
of relevant results among the first k divided by k (with the 0/0 = 0
convention at k = 0), lies in the unit interval, and is 0 when k = 0 or the
list is empty. -/
theorem C6_precision_at_k_spec (results : List Metrics.SearchResult) (k : ℕ) :
    Metrics.precision_at_k results k =
      ((results.take k).countP (fun r => r.relevant) : ℚ) / (k : ℚ) ∧
    0 ≤ Metrics.precision_at_k results k ∧
    Metrics.precision_at_k results k ≤ 1 ∧
    (k = 0 → Metrics.precision_at_k results k = 0) ∧
    (results = [] → Metrics.precision_at_k results k = 0) := by
  refine ⟨Metrics.precision_at_k_eq results k, Metrics.precision_at_k_nonneg results k,
    Metrics.precision_at_k_le_one results k, ?_, ?_⟩
  · intro hk
    subst hk
    rw [Metrics.precision_at_k_eq]
    simp
  · intro he
    subst he
    rw [Metrics.precision_at_k_eq]
    simp

/-- C6 witness: the theorem instantiated on a concrete two-element result
list at cutoff 1, with its two conditional clauses discharged on the inputs
that satisfy them. -/
theorem C6_precision_at_k_spec_witness :
    (Metrics.precision_at_k
        [{ doc_id := "a", score := 1, rank := 1, relevant := true },
         { doc_id := "b", score := 1/2, rank := 2, relevant := false }] 0 = 0) ∧
    Metrics.precision_at_k ([] : List Metrics.SearchResult) 3 = 0 :=
  ⟨(C6_precision_at_k_spec _ 0).2.2.2.1 rfl,
   (C6_precision_at_k_spec [] 3).2.2.2.2 rfl⟩

/-- C8: for a fixed result list and fixed positive total_relevant,
recall_at_k is monotonically non-decreasing in the cutoff k. -/
theorem C8_recall_at_k_monotone (results : List Metrics.SearchResult)
    (total_relevant : ℕ) (htr : 0 < total_relevant)
    (k1 k2 : ℕ) (hk : k1 ≤ k2) :
    Metrics.recall_at_k results k1 total_relevant ≤
      Metrics.recall_at_k results k2 total_relevant :=
  Metrics.recall_at_k_mono results total_relevant hk

/-- C8 witness: the theorem instantiated on a concrete three-element result
list with total_relevant = 2, at cutoffs 1 and 3. -/
theorem C8_recall_at_k_monotone_witness :
    Metrics.recall_at_k
        [{ doc_id := "a", score := 1, rank := 1, relevant := false },
         { doc_id := "b", score := 1/2, rank := 2, relevant := true },
         { doc_id := "c", score := 1/4, rank := 3, relevant := true }] 1 2 ≤
      Metrics.recall_at_k
        [{ doc_id := "a", score := 1, rank := 1, relevant := false },
         { doc_id := "b", score := 1/2, rank := 2, relevant := true },
         { doc_id := "c", score := 1/4, rank := 3, relevant := true }] 3 2 :=
  C8_recall_at_k_monotone _ 2 (by norm_num) 1 3 (by norm_num)

/-- C9: hybrid_fusion_gain returns the relative improvement over the best
single-method score when that best score is nonzero, returns 0 when it is
zero, and in particular returns 0 on the all-zero baseline instead of
failing on the zero denominator. -/
theorem C9_hybrid_fusion_gain_spec (hybrid_score semantic_score lexical_score ast_score : ℚ) :
    (max semantic_score (max lexical_score ast_score) = 0 →
      Metrics.hybrid_fusion_gain hybrid_score semantic_score lexical_score ast_score = 0) ∧
    (max semantic_score (max lexical_score ast_score) ≠ 0 →
      Metrics.hybrid_fusion_gain hybrid_score semantic_score lexical_score ast_score =
        (hybrid_score - max semantic_score (max lexical_score ast_score)) /
          max semantic_score (max lexical_score ast_score)) ∧
    Metrics.hybrid_fusion_gain 0 0 0 0 = 0 := by
  unfold Metrics.hybrid_fusion_gain
  refine ⟨fun h => by rw [if_pos h], fun h => by rw [if_neg h], by norm_num⟩

/-- C9 witness: the theorem instantiated once on the all-zero baseline and
once on a baseline with best single-method score 1/2. -/
theorem C9_hybrid_fusion_gain_spec_witness :
    (max (0 : ℚ) (max 0 0) = 0 ∧ Metrics.hybrid_fusion_gain 5 0 0 0 = 0) ∧
    (max (1/2 : ℚ) (max (1/4) 0) ≠ 0 ∧
      Metrics.hybrid_fusion_gain 1 (1/2) (1/4) 0 =
        (1 - max (1/2 : ℚ) (max (1/4) 0)) / max (1/2 : ℚ) (max (1/4) 0)) :=
  ⟨⟨by norm_num, (C9_hybrid_fusion_gain_spec 5 0 0 0).1 (by norm_num)⟩,
   ⟨by norm_num, (C9_hybrid_fusion_gain_spec 1 (1/2) (1/4) 0).2.1 (by norm_num)⟩⟩

/-- C10: the per-task comparison record built by run_single_task sets each
of the three percentage-reduction fields to (A - B) / A * 100 over the
corresponding quantity when the baseline quantity is positive, and to 0
when it is zero. -/
theorem C10_reduction_formulas (task : Runner.Task) (A B : Runner.AgentRunRecord) :
    (0 < A.total_calls →
      (Runner.run_single_task task A B).call_reduction_pct =
        ((A.total_calls : ℚ) - (B.total_calls : ℚ)) / (A.total_calls : ℚ) * 100) ∧
    (A.total_calls = 0 → (Runner.run_single_task task A B).call_reduction_pct = 0) ∧
    (0 < A.total_output_tokens →
      (Runner.run_single_task task A B).token_reduction_pct =
        ((A.total_output_tokens : ℚ) - (B.total_output_tokens : ℚ)) /
          (A.total_output_tokens : ℚ) * 100) ∧
    (A.total_output_tokens = 0 → (Runner.run_single_task task A B).token_reduction_pct = 0) ∧
    (0 < A.total_duration →
      (Runner.run_single_task task A B).time_reduction_pct =
        (A.total_duration - B.total_duration) / A.total_duration * 100) ∧
    (A.total_duration = 0 → (Runner.run_single_task task A B).time_reduction_pct = 0) := by
  unfold Runner.run_single_task
  refine ⟨fun h => by simp [h], fun h => by simp [h], fun h => by simp [h],
    fun h => by simp [h], fun h => by simp [h], fun h => by simp [h]⟩

/-- C10 witness: the theorem instantiated once on a record with positive
baseline quantities and once on an all-zero baseline record. -/
theorem C10_reduction_formulas_witness :
    ((Runner.run_single_task { id := "t1" } ⟨4, 100, 10, 1/2, 1/2, true⟩
        ⟨1, 10, 2, 3/4, 1, true⟩).call_reduction_pct =
      (((4 : ℕ) : ℚ) - ((1 : ℕ) : ℚ)) / ((4 : ℕ) : ℚ) * 100) ∧
    ((Runner.run_single_task { id := "t1" } ⟨0, 0, 0, 1/2, 1/2, false⟩
        ⟨1, 10, 2, 3/4, 1, true⟩).time_reduction_pct = 0) :=
  ⟨(C10_reduction_formulas { id := "t1" } ⟨4, 100, 10, 1/2, 1/2, true⟩
      ⟨1, 10, 2, 3/4, 1, true⟩).1 (by norm_num),
   (C10_reduction_formulas { id := "t1" } ⟨0, 0, 0, 1/2, 1/2, false⟩
      ⟨1, 10, 2, 3/4, 1, true⟩).2.2.2.2.2 rfl⟩

namespace Metrics

/-! Helper lemmas for the DCG family.  The discount applied to the item at
1-based window position s is 1 / log2(s + 1); over the window positions
s = 1, 2, ... these weights are positive and non-increasing, which is what
makes the synthetic ideal ranking maximal. -/

/-- Value of the ideal DCG: idealSum m s is the sum of the discounts of m
consecutive perfectly relevant items starting at window position s. -/
noncomputable def idealSum : ℕ → ℕ → ℝ
  | 0, _ => 0
  | m + 1, s => 1 / Real.logb 2 ((s : ℝ) + 1) + idealSum m (s + 1)

lemma logb_nonneg_nat (s : ℕ) : 0 ≤ Real.logb 2 ((s : ℝ) + 1) := by
  apply Real.logb_nonneg (by norm_num)
  have : (0 : ℝ) ≤ (s : ℝ) := Nat.cast_nonneg s
  linarith

lemma one_le_logb (s : ℕ) (hs : 1 ≤ s) : 1 ≤ Real.logb 2 ((s : ℝ) + 1) := by
  have h2 : (2 : ℝ) ≤ (s : ℝ) + 1 := by
    have : (1 : ℝ) ≤ (s : ℝ) := by exact_mod_cast hs
    linarith
  calc (1 : ℝ) = Real.logb 2 2 := (Real.logb_self_eq_one (by norm_num)).symm
    _ ≤ Real.logb 2 ((s : ℝ) + 1) :=
        Real.logb_le_logb_of_le (by norm_num) (by norm_num) h2

lemma logb_pos_of_one_le (s : ℕ) (hs : 1 ≤ s) : 0 < Real.logb 2 ((s : ℝ) + 1) :=
  lt_of_lt_of_le one_pos (one_le_logb s hs)

lemma discount_nonneg (s : ℕ) : 0 ≤ 1 / Real.logb 2 ((s : ℝ) + 1) :=
  div_nonneg zero_le_one (logb_nonneg_nat s)

lemma discount_antitone {s t : ℕ} (hs : 1 ≤ s) (hst : s ≤ t) :
    1 / Real.logb 2 ((t : ℝ) + 1) ≤ 1 / Real.logb 2 ((s : ℝ) + 1) := by
  apply one_div_le_one_div_of_le (logb_pos_of_one_le s hs)
  apply Real.logb_le_logb_of_le (by norm_num)
  · positivity
  · have : (s : ℝ) ≤ (t : ℝ) := by exact_mod_cast hst
    linarith

lemma idealSum_nonneg (m s : ℕ) : 0 ≤ idealSum m s := by
  induction m generalizing s with
  | zero => exact le_refl 0
  | succ n ih => exact add_nonneg (discount_nonneg s) (ih (s + 1))

lemma idealSum_shift_le (m : ℕ) : ∀ s, 1 ≤ s → idealSum m (s + 1) ≤ idealSum m s := by
  induction m with
  | zero => intro s _; exact le_refl 0
  | succ n ih =>
      intro s hs
      unfold idealSum
      have h1 : 1 / Real.logb 2 (((s + 1 : ℕ) : ℝ) + 1) ≤ 1 / Real.logb 2 ((s : ℝ) + 1) :=
        discount_antitone hs (Nat.le_succ s)
      exact add_le_add h1 (ih (s + 1) (by omega))

lemma idealSum_mono {m m' : ℕ} (h : m ≤ m') : ∀ s, 1 ≤ s → idealSum m s ≤ idealSum m' s := by
  induction m generalizing m' with
  | zero => intro s hs; exact idealSum_nonneg m' s
  | succ n ih =>
      intro s hs
      obtain ⟨m'', rfl⟩ := Nat.exists_eq_add_of_le h
      have h' : n ≤ n + m'' := Nat.le_add_right n m''
      show idealSum (n + 1) s ≤ idealSum (n + 1 + m'') s
      have : n + 1 + m'' = (n + m'') + 1 := by omega
      rw [this]
      unfold idealSum
      exact add_le_add (le_refl _) (ih h' (s + 1) (by omega))

lemma dcgAux_nonneg (l : List SearchResult) : ∀ s, 0 ≤ dcgAux l s := by
  induction l with
  | nil => intro s; exact le_refl 0
  | cons r rs ih =>
      intro s
      unfold dcgAux
      apply add_nonneg _ (ih (s + 1))
      apply div_nonneg _ (logb_nonneg_nat s)
      split
      · exact zero_le_one
      · exact le_refl 0

lemma dcgAux_le_idealSum (l : List SearchResult) :
    ∀ s, 1 ≤ s → dcgAux l s ≤ idealSum (l.countP (fun r => r.relevant)) s := by
  induction l with
  | nil => intro s _; exact le_refl 0
  | cons r rs ih =>
      intro s hs
      cases hr : r.relevant with
      | false =>
          have hcnt : (r :: rs).countP (fun r => r.relevant) =
              rs.countP (fun r => r.relevant) := by
            simp [List.countP_cons, hr]
          have hd : dcgAux (r :: rs) s = dcgAux rs (s + 1) := by
            show (if r.relevant = true then (1 : ℝ) else 0) / Real.logb 2 ((s : ℝ) + 1) +
              dcgAux rs (s + 1) = dcgAux rs (s + 1)
            rw [hr]
            simp
          rw [hcnt, hd]
          calc dcgAux rs (s + 1) ≤ idealSum (rs.countP (fun r => r.relevant)) (s + 1) :=
                ih (s + 1) (by omega)
            _ ≤ idealSum (rs.countP (fun r => r.relevant)) s :=
                idealSum_shift_le _ s hs
      | true =>
          have hcnt : (r :: rs).countP (fun r => r.relevant) =
              rs.countP (fun r => r.relevant) + 1 := by
            simp [List.countP_cons, hr]
          have hd : dcgAux (r :: rs) s =
              1 / Real.logb 2 ((s : ℝ) + 1) + dcgAux rs (s + 1) := by
            show (if r.relevant = true then (1 : ℝ) else 0) / Real.logb 2 ((s : ℝ) + 1) +
              dcgAux rs (s + 1) = 1 / Real.logb 2 ((s : ℝ) + 1) + dcgAux rs (s + 1)
            rw [hr]
            simp
          rw [hcnt, hd]
          unfold idealSum
          exact add_le_add (le_refl _) (ih (s + 1) (by omega))

lemma dcgAux_all_relevant (l : List SearchResult) (hl : ∀ r ∈ l, r.relevant = true) :
    ∀ s, dcgAux l s = idealSum l.length s := by
  induction l with
  | nil => intro s; rfl
  | cons r rs ih =>
      intro s
      unfold dcgAux idealSum
      rw [hl r (List.mem_cons_self r rs)]
      simp only [ite_true, List.length_cons]
      rw [ih (fun x hx => hl x (List.mem_cons_of_mem r hx)) (s + 1)]

lemma ideal_results_length (k total_relevant : ℕ) :
    (ideal_results k total_relevant).length = min k total_relevant := by
  unfold ideal_results
  rw [List.length_map, List.length_range']

lemma ideal_results_all_relevant (k total_relevant : ℕ) :
    ∀ r ∈ ideal_results k total_relevant, r.relevant = true := by
  intro r hr
  unfold ideal_results at hr
  obtain ⟨i, _, rfl⟩ := List.mem_map.mp hr
  rfl

lemma ideal_dcg_eq (k total_relevant : ℕ) (hk : k ≠ 0) (htr : total_relevant ≠ 0) :
    discounted_cumulative_gain (ideal_results k total_relevant) k =
      idealSum (min k total_relevant) 1 := by
  have hlen : (ideal_results k total_relevant).length = min k total_relevant :=
    ideal_results_length k total_relevant
  have hne : ideal_results k total_relevant ≠ [] := by
    intro h
    rw [h] at hlen
    simp at hlen
    omega
  unfold discounted_cumulative_gain
  rw [if_neg (by simp [hne, hk])]
  rw [List.take_of_length_le (by rw [hlen]; exact min_le_left _ _)]
  rw [dcgAux_all_relevant _ (ideal_results_all_relevant k total_relevant) 1, hlen]

lemma idealSum_pos (m : ℕ) (hm : 1 ≤ m) : 0 < idealSum m 1 := by
  obtain ⟨n, rfl⟩ := Nat.exists_eq_add_of_le hm
  show 0 < idealSum (1 + n) 1
  rw [Nat.add_comm 1 n]
  unfold idealSum
  have h1 : 0 < 1 / Real.logb 2 ((1 : ℕ) + 1 : ℝ) := by
    apply div_pos one_pos
    exact_mod_cast logb_pos_of_one_le 1 (le_refl 1)
  have h2 : 0 ≤ idealSum n 2 := idealSum_nonneg n 2
  push_cast at h1 ⊢
  linarith

lemma dcg_nonneg (results : List SearchResult) (k : ℕ) :
    0 ≤ discounted_cumulative_gain results k := by
  unfold discounted_cumulative_gain
  split
  · exact le_refl 0
  · exact dcgAux_nonneg _ 1

lemma ndcg_nonneg (results : List SearchResult) (k total_relevant : ℕ) :
    0 ≤ normalized_dcg results k total_relevant := by
  unfold normalized_dcg
  split
  · exact le_refl 0
  · show 0 ≤
      if discounted_cumulative_gain (ideal_results k total_relevant) k = 0 then (0 : ℝ)
      else discounted_cumulative_gain results k /
        discounted_cumulative_gain (ideal_results k total_relevant) k
    split
    · exact le_refl 0
    · exact div_nonneg (dcg_nonneg _ _) (dcg_nonneg _ _)

lemma ndcg_le_one (results : List SearchResult) (k total_relevant : ℕ)
    (h : (results.take k).countP (fun r => r.relevant) ≤ total_relevant) :
    normalized_dcg results k total_relevant ≤ 1 := by
  unfold normalized_dcg
  split
  · exact zero_le_one
  · rename_i hguard
    push_neg at hguard
    obtain ⟨hne, hk, htr⟩ := hguard
    show (if discounted_cumulative_gain (ideal_results k total_relevant) k = 0 then (0 : ℝ)
      else discounted_cumulative_gain results k /
        discounted_cumulative_gain (ideal_results k total_relevant) k) ≤ 1
    split
    · exact zero_le_one
    · rename_i hideal
      rw [ideal_dcg_eq k total_relevant hk htr] at hideal ⊢
      have hm : 1 ≤ min k total_relevant := by omega
      have hpos : 0 < idealSum (min k total_relevant) 1 := idealSum_pos _ hm
      rw [div_le_one hpos]
      have hcount : (results.take k).countP (fun r => r.relevant) ≤ min k total_relevant := by
        have h1 : (results.take k).countP (fun r => r.relevant) ≤ k :=
          le_trans (List.countP_le_length _) (List.length_take_le k results)
        omega
      calc discounted_cumulative_gain results k
          = dcgAux (results.take k) 1 := by
            unfold discounted_cumulative_gain
            rw [if_neg (by simp [hne, hk])]
        _ ≤ idealSum ((results.take k).countP (fun r => r.relevant)) 1 :=
            dcgAux_le_idealSum _ 1 (le_refl 1)
        _ ≤ idealSum (min k total_relevant) 1 := idealSum_mono hcount 1 (le_refl 1)

end Metrics

/-- C3: for every input in which the number of results flagged relevant
within the top k does not exceed total_relevant, normalized_dcg is at most
1 (the actual DCG never exceeds the ideal DCG over min(k, total_relevant)
perfectly relevant items), and it is 0 whenever total_relevant = 0, k = 0,
the result list is empty, or the ideal DCG is 0. -/
theorem C3_normalized_dcg_le_one (results : List Metrics.SearchResult)
    (k total_relevant : ℕ)
    (h : (results.take k).countP (fun r => r.relevant) ≤ total_relevant) :
    Metrics.normalized_dcg results k total_relevant ≤ 1 ∧
    (total_relevant = 0 → Metrics.normalized_dcg results k total_relevant = 0) ∧
    (k = 0 → Metrics.normalized_dcg results k total_relevant = 0) ∧
    (results = [] → Metrics.normalized_dcg results k total_relevant = 0) ∧
    (Metrics.discounted_cumulative_gain (Metrics.ideal_results k total_relevant) k = 0 →
      Metrics.normalized_dcg results k total_relevant = 0) := by
  refine ⟨Metrics.ndcg_le_one results k total_relevant h, ?_, ?_, ?_, ?_⟩
  · intro htr
    unfold Metrics.normalized_dcg
    rw [if_pos (Or.inr (Or.inr htr))]
  · intro hk
    unfold Metrics.normalized_dcg
    rw [if_pos (Or.inr (Or.inl hk))]
  · intro hres
    unfold Metrics.normalized_dcg
    rw [if_pos (Or.inl hres)]
  · intro hideal
    unfold Metrics.normalized_dcg
    split
    · rfl
    · show (if Metrics.discounted_cumulative_gain
            (Metrics.ideal_results k total_relevant) k = 0 then (0 : ℝ)
          else Metrics.discounted_cumulative_gain results k /
            Metrics.discounted_cumulative_gain
              (Metrics.ideal_results k total_relevant) k) = 0
      rw [if_pos hideal]

/-- C3 witness: the theorem instantiated on a one-element fully relevant
result list at cutoff 1 with total_relevant = 2, discharging the count
hypothesis and the zero clauses on inputs satisfying them. -/
theorem C3_normalized_dcg_le_one_witness :
    (([({ doc_id := "a", score := 1, rank := 1, relevant := true } :
          Metrics.SearchResult)].take 1).countP (fun r => r.relevant) ≤ 2 ∧
      Metrics.normalized_dcg
        [{ doc_id := "a", score := 1, rank := 1, relevant := true }] 1 2 ≤ 1) ∧
    Metrics.normalized_dcg
        [{ doc_id := "a", score := 1, rank := 1, relevant := false }] 1 0 = 0 ∧
    Metrics.normalized_dcg
        [{ doc_id := "a", score := 1, rank := 1, relevant := true }] 0 2 = 0 ∧
    Metrics.normalized_dcg ([] : List Metrics.SearchResult) 1 2 = 0 :=
  ⟨⟨by decide,
    (C3_normalized_dcg_le_one [{ doc_id := "a", score := 1, rank := 1, relevant := true }]
      1 2 (by decide)).1⟩,
   (C3_normalized_dcg_le_one [{ doc_id := "a", score := 1, rank := 1, relevant := false }]
      1 0 (by decide)).2.1 rfl,
   (C3_normalized_dcg_le_one [{ doc_id := "a", score := 1, rank := 1, relevant := true }]
      0 2 (by decide)).2.2.1 rfl,
   (C3_normalized_dcg_le_one [] 1 2 (by decide)).2.2.2.1 rfl⟩

namespace Metrics

/-! Helper lemmas for the bounds of the full metric bundle. -/

lemma countP_mem_le_card (l : List String) (hl : l.Nodup) (S : Finset String) :
    l.countP (fun s => decide (s ∈ S)) ≤ S.card := by
  rw [List.countP_eq_length_filter]
  have hnd : (l.filter (fun s => decide (s ∈ S))).Nodup := hl.filter _
  have hsub : (l.filter (fun s => decide (s ∈ S))).toFinset ⊆ S := by
    intro x hx
    rw [List.mem_toFinset] at hx
    have := List.of_mem_filter hx
    simpa using this
  calc (l.filter (fun s => decide (s ∈ S))).length
      = (l.filter (fun s => decide (s ∈ S))).toFinset.card :=
        (List.toFinset_card_of_nodup hnd).symm
    _ ≤ S.card := Finset.card_le_card hsub

lemma markResults_countP (l : List SearchResult) (S : Finset String) :
    (markResults l S).countP (fun r => r.relevant) =
      (l.map (fun r => r.doc_id)).countP (fun s => decide (s ∈ S)) := by
  unfold markResults
  rw [List.countP_map, List.countP_map]
  rfl

lemma markResults_take (l : List SearchResult) (S : Finset String) (k : ℕ) :
    (markResults l S).take k = markResults (l.take k) S := by
  unfold markResults
  rw [List.map_take]

lemma marked_countP_take_le_card (l : List SearchResult) (S : Finset String)
    (hids : (l.map (fun r => r.doc_id)).Nodup) (k : ℕ) :
    ((markResults l S).take k).countP (fun r => r.relevant) ≤ S.card := by
  rw [markResults_take, markResults_countP]
  apply countP_mem_le_card
  rw [List.map_take]
  exact (List.take_sublist k _).nodup hids

lemma marked_countP_le_card (l : List SearchResult) (S : Finset String)
    (hids : (l.map (fun r => r.doc_id)).Nodup) :
    (markResults l S).countP (fun r => r.relevant) ≤ S.card := by
  rw [markResults_countP]
  exact countP_mem_le_card _ hids S

lemma recall_at_k_le_one (l : List SearchResult) (k tr : ℕ)
    (h : (l.take k).countP (fun r => r.relevant) ≤ tr) :
    recall_at_k l k tr ≤ 1 := by
  unfold recall_at_k
  split
  · exact zero_le_one
  · rename_i hg
    push_neg at hg
    have htr : (0 : ℚ) < (tr : ℚ) := by exact_mod_cast Nat.pos_of_ne_zero hg.2.2
    rw [div_le_one htr]
    exact_mod_cast h

lemma mrr_nonneg (l : List SearchResult) : 0 ≤ mean_reciprocal_rank l := by
  induction l with
  | nil => exact le_refl 0
  | cons r rs ih =>
      unfold mean_reciprocal_rank
      split
      · exact div_nonneg zero_le_one (Nat.cast_nonneg r.rank)
      · exact ih

lemma mrr_le_one (l : List SearchResult) (h : ∀ r ∈ l, 1 ≤ r.rank) :
    mean_reciprocal_rank l ≤ 1 := by
  induction l with
  | nil => exact zero_le_one
  | cons r rs ih =>
      unfold mean_reciprocal_rank
      split
      · have h1 : 1 ≤ r.rank := h r (List.mem_cons_self r rs)
        have hpos : (0 : ℚ) < (r.rank : ℚ) := by exact_mod_cast Nat.lt_of_lt_of_le one_pos h1
        rw [div_le_one hpos]
        exact_mod_cast h1
      · exact ih (fun x hx => h x (List.mem_cons_of_mem r hx))

lemma ranksFrom_rank_ge (l : List SearchResult) :
    ∀ n, ranksFrom l n = true → ∀ r ∈ l, n ≤ r.rank := by
  induction l with
  | nil => intro n _ r hr; simp at hr
  | cons a as ih =>
      intro n h r hr
      unfold ranksFrom at h
      rw [Bool.and_eq_true, beq_iff_eq] at h
      rcases List.mem_cons.mp hr with rfl | hr'
      · omega
      · exact le_trans (Nat.le_succ n) (ih (n + 1) h.2 r hr')

lemma markResults_rank_ge_one (l : List SearchResult) (S : Finset String)
    (h : ∀ r ∈ l, 1 ≤ r.rank) : ∀ r ∈ markResults l S, 1 ≤ r.rank := by
  intro r hr
  obtain ⟨r0, hr0, rfl⟩ := List.mem_map.mp hr
  exact h r0 hr0

lemma apAux_nonneg (l : List SearchResult) : ∀ i cnt, 0 ≤ apAux l i cnt := by
  induction l with
  | nil => intro i cnt; exact le_refl 0
  | cons r rs ih =>
      intro i cnt
      unfold apAux
      split
      · exact add_nonneg (div_nonneg (Nat.cast_nonneg _) (Nat.cast_nonneg i)) (ih (i + 1) (cnt + 1))
      · exact ih (i + 1) cnt

lemma apAux_le_countP (l : List SearchResult) :
    ∀ i cnt, 1 ≤ i → cnt + 1 ≤ i →
      apAux l i cnt ≤ (l.countP (fun r => r.relevant) : ℚ) := by
  induction l with
  | nil => intro i cnt _ _; simp [apAux]
  | cons r rs ih =>
      intro i cnt hi hcnt
      cases hr : r.relevant with
      | false =>
          have hc : (r :: rs).countP (fun r => r.relevant) =
              rs.countP (fun r => r.relevant) := by
            simp [List.countP_cons, hr]
          have hd : apAux (r :: rs) i cnt = apAux rs (i + 1) cnt := by
            show (if r.relevant = true then ((cnt + 1 : ℕ) : ℚ) / (i : ℚ) +
              apAux rs (i + 1) (cnt + 1) else apAux rs (i + 1) cnt) = apAux rs (i + 1) cnt
            rw [hr]
            simp
          rw [hc, hd]
          exact ih (i + 1) cnt (by omega) (by omega)
      | true =>
          have hc : (r :: rs).countP (fun r => r.relevant) =
              rs.countP (fun r => r.relevant) + 1 := by
            simp [List.countP_cons, hr]
          have hd : apAux (r :: rs) i cnt = ((cnt + 1 : ℕ) : ℚ) / (i : ℚ) +
              apAux rs (i + 1) (cnt + 1) := by
            show (if r.relevant = true then ((cnt + 1 : ℕ) : ℚ) / (i : ℚ) +
              apAux rs (i + 1) (cnt + 1) else apAux rs (i + 1) cnt) =
              ((cnt + 1 : ℕ) : ℚ) / (i : ℚ) + apAux rs (i + 1) (cnt + 1)
            rw [hr]
            simp
          rw [hc, hd]
          have hterm : ((cnt + 1 : ℕ) : ℚ) / (i : ℚ) ≤ 1 := by
            rw [div_le_one (by exact_mod_cast Nat.lt_of_lt_of_le one_pos hi)]
            exact_mod_cast hcnt
          have htail : apAux rs (i + 1) (cnt + 1) ≤ (rs.countP (fun r => r.relevant) : ℚ) :=
            ih (i + 1) (cnt + 1) (by omega) (by omega)
          push_cast at hterm ⊢
          linarith

lemma average_precision_nonneg (l : List SearchResult) (tr : ℕ) :
    0 ≤ average_precision l tr := by
  unfold average_precision
  split
  · exact le_refl 0
  · exact div_nonneg (apAux_nonneg l 1 0) (Nat.cast_nonneg tr)

lemma average_precision_le_one (l : List SearchResult) (tr : ℕ)
    (h : l.countP (fun r => r.relevant) ≤ tr) : average_precision l tr ≤ 1 := by
  unfold average_precision
  split
  · exact zero_le_one
  · rename_i hg
    push_neg at hg
    have htr : (0 : ℚ) < (tr : ℚ) := by exact_mod_cast Nat.pos_of_ne_zero hg.2
    rw [div_le_one htr]
    calc apAux l 1 0 ≤ (l.countP (fun r => r.relevant) : ℚ) :=
          apAux_le_countP l 1 0 (le_refl 1) (le_refl 1)
      _ ≤ (tr : ℚ) := by exact_mod_cast h

end Metrics

/-- C2: for every well-formed input — stored ranks positive, ascending and
contiguous from 1, and no duplicate identifiers — every numeric field of
the metric bundle returned by evaluate_query (precision at 1, 5 and 10,
recall at 10, MRR, nDCG at 10 and average precision) lies in the closed
interval from 0 to 1. -/
theorem C2_evaluate_query_unit_interval (results : List Metrics.SearchResult)
    (relevant_docs : Finset String)
    (hranks : Metrics.ranksFrom results 1 = true)
    (hids : (results.map (fun r => r.doc_id)).Nodup) :
    (0 ≤ (Metrics.evaluate_query results relevant_docs).precision_at_1 ∧
      (Metrics.evaluate_query results relevant_docs).precision_at_1 ≤ 1) ∧
    (0 ≤ (Metrics.evaluate_query results relevant_docs).precision_at_5 ∧
      (Metrics.evaluate_query results relevant_docs).precision_at_5 ≤ 1) ∧
    (0 ≤ (Metrics.evaluate_query results relevant_docs).precision_at_10 ∧
      (Metrics.evaluate_query results relevant_docs).precision_at_10 ≤ 1) ∧
    (0 ≤ (Metrics.evaluate_query results relevant_docs).recall_at_10 ∧
      (Metrics.evaluate_query results relevant_docs).recall_at_10 ≤ 1) ∧
    (0 ≤ (Metrics.evaluate_query results relevant_docs).mrr ∧
      (Metrics.evaluate_query results relevant_docs).mrr ≤ 1) ∧
    (0 ≤ (Metrics.evaluate_query results relevant_docs).ndcg_at_10 ∧
      (Metrics.evaluate_query results relevant_docs).ndcg_at_10 ≤ 1) ∧
    (0 ≤ (Metrics.evaluate_query results relevant_docs).average_precision ∧
      (Metrics.evaluate_query results relevant_docs).average_precision ≤ 1) := by
  have hmarkrank : ∀ r ∈ Metrics.markResults results relevant_docs, 1 ≤ r.rank :=
    Metrics.markResults_rank_ge_one results relevant_docs
      (Metrics.ranksFrom_rank_ge results 1 hranks)
  have hcount10 : ((Metrics.markResults results relevant_docs).take 10).countP
      (fun r => r.relevant) ≤ relevant_docs.card :=
    Metrics.marked_countP_take_le_card results relevant_docs hids 10
  have hcountall : (Metrics.markResults results relevant_docs).countP
      (fun r => r.relevant) ≤ relevant_docs.card :=
    Metrics.marked_countP_le_card results relevant_docs hids
  refine ⟨⟨?_, ?_⟩, ⟨?_, ?_⟩, ⟨?_, ?_⟩, ⟨?_, ?_⟩, ⟨?_, ?_⟩, ⟨?_, ?_⟩, ⟨?_, ?_⟩⟩
  · exact Metrics.precision_at_k_nonneg _ 1
  · exact Metrics.precision_at_k_le_one _ 1
  · exact Metrics.precision_at_k_nonneg _ 5
  · exact Metrics.precision_at_k_le_one _ 5
  · exact Metrics.precision_at_k_nonneg _ 10
  · exact Metrics.precision_at_k_le_one _ 10
  · exact Metrics.recall_at_k_nonneg _ 10 _
  · exact Metrics.recall_at_k_le_one _ 10 _ hcount10
  · exact Metrics.mrr_nonneg _
  · exact Metrics.mrr_le_one _ hmarkrank
  · exact Metrics.ndcg_nonneg _ 10 _
  · exact Metrics.ndcg_le_one _ 10 _ hcount10
  · exact Metrics.average_precision_nonneg _ _
  · exact Metrics.average_precision_le_one _ _ hcountall

/-- Concrete well-formed two-element result list used by the C2 witness. -/
def wfResults : List Metrics.SearchResult :=
  [{ doc_id := "a", score := 1, rank := 1, relevant := false },
   { doc_id := "b", score := 1/2, rank := 2, relevant := false }]

/-- C2 witness: the theorem instantiated on a concrete well-formed
two-element result list against the judgment set containing one of its
identifiers, with both well-formedness hypotheses discharged by
computation. -/
theorem C2_evaluate_query_unit_interval_witness :
    Metrics.ranksFrom wfResults 1 = true ∧
    (wfResults.map (fun r => r.doc_id)).Nodup ∧
    ((0 ≤ (Metrics.evaluate_query wfResults {"a"}).precision_at_1 ∧
      (Metrics.evaluate_query wfResults {"a"}).precision_at_1 ≤ 1) ∧
    (0 ≤ (Metrics.evaluate_query wfResults {"a"}).precision_at_5 ∧
      (Metrics.evaluate_query wfResults {"a"}).precision_at_5 ≤ 1) ∧
    (0 ≤ (Metrics.evaluate_query wfResults {"a"}).precision_at_10 ∧
      (Metrics.evaluate_query wfResults {"a"}).precision_at_10 ≤ 1) ∧
    (0 ≤ (Metrics.evaluate_query wfResults {"a"}).recall_at_10 ∧
      (Metrics.evaluate_query wfResults {"a"}).recall_at_10 ≤ 1) ∧
    (0 ≤ (Metrics.evaluate_query wfResults {"a"}).mrr ∧
      (Metrics.evaluate_query wfResults {"a"}).mrr ≤ 1) ∧
    (0 ≤ (Metrics.evaluate_query wfResults {"a"}).ndcg_at_10 ∧
      (Metrics.evaluate_query wfResults {"a"}).ndcg_at_10 ≤ 1) ∧
    (0 ≤ (Metrics.evaluate_query wfResults {"a"}).average_precision ∧
      (Metrics.evaluate_query wfResults {"a"}).average_precision ≤ 1)) :=
  ⟨by decide, by decide,
   C2_evaluate_query_unit_interval wfResults {"a"} (by decide) (by decide)⟩

namespace Metrics

lemma mapAux_eq_filter_map (judgments : String → Finset String)
    (l : List (String × List SearchResult)) :
    mapAux judgments l =
      (l.filter (fun q => decide (judgments q.1 ≠ ∅))).map
        (fun q => average_precision (markResults q.2 (judgments q.1))
          (judgments q.1).card) := by
  induction l with
  | nil => rfl
  | cons q rest ih =>
      by_cases h : judgments q.1 = ∅
      · have hstep : mapAux judgments (q :: rest) = mapAux judgments rest := by
          simp only [mapAux]
          rw [if_pos h]
        rw [hstep, ih, List.filter_cons]
        simp [h]
      · have hstep : mapAux judgments (q :: rest) =
            average_precision (markResults q.2 (judgments q.1)) (judgments q.1).card ::
              mapAux judgments rest := by
          simp only [mapAux]
          rw [if_neg h]
        rw [hstep, ih, List.filter_cons]
        simp [h]

lemma mrr_append_first_relevant (l1 : List SearchResult) (x : SearchResult)
    (l2 : List SearchResult) (h1 : ∀ y ∈ l1, y.relevant = false)
    (hx : x.relevant = true) :
    mean_reciprocal_rank (l1 ++ x :: l2) = 1 / (x.rank : ℚ) := by
  induction l1 with
  | nil =>
      show (if x.relevant = true then 1 / (x.rank : ℚ)
        else mean_reciprocal_rank l2) = 1 / (x.rank : ℚ)
      rw [hx]
      simp
  | cons a as ih =>
      have ha : a.relevant = false := h1 a (List.mem_cons_self a as)
      have hstep : mean_reciprocal_rank ((a :: as) ++ x :: l2) =
          mean_reciprocal_rank (as ++ x :: l2) := by
        show (if a.relevant = true then 1 / (a.rank : ℚ)
          else mean_reciprocal_rank (as ++ x :: l2)) = mean_reciprocal_rank (as ++ x :: l2)
        rw [ha]
        simp
      rw [hstep]
      exact ih (fun y hy => h1 y (List.mem_cons_of_mem a hy))

lemma dcgAux_relevant_congr : ∀ (l l' : List SearchResult),
    l.map (fun r => r.relevant) = l'.map (fun r => r.relevant) →
    ∀ i, dcgAux l i = dcgAux l' i
  | [], [], _, i => rfl
  | [], b :: bs, h, i => by simp at h
  | a :: as, [], h, i => by simp at h
  | a :: as, b :: bs, h, i => by
      rw [List.map_cons, List.map_cons] at h
      have h1 : a.relevant = b.relevant := (List.cons.injEq _ _ _ _ ▸ h).1
      have h2 : as.map (fun r => r.relevant) = bs.map (fun r => r.relevant) :=
        (List.cons.injEq _ _ _ _ ▸ h).2
      show (if a.relevant = true then (1 : ℝ) else 0) / Real.logb 2 ((i : ℝ) + 1) +
          dcgAux as (i + 1) =
        (if b.relevant = true then (1 : ℝ) else 0) / Real.logb 2 ((i : ℝ) + 1) +
          dcgAux bs (i + 1)
      rw [h1, dcgAux_relevant_congr as bs h2 (i + 1)]

lemma dcg_relevant_congr (l l' : List SearchResult)
    (h : l.map (fun r => r.relevant) = l'.map (fun r => r.relevant)) (k : ℕ) :
    discounted_cumulative_gain l k = discounted_cumulative_gain l' k := by
  have hlen : l.length = l'.length := by
    have := congrArg List.length h
    simpa using this
  unfold discounted_cumulative_gain
  by_cases he : l = []
  · have he' : l' = [] := by
      apply List.eq_nil_of_length_eq_zero
      rw [← hlen, he]
      rfl
    rw [if_pos (Or.inl he), if_pos (Or.inl he')]
  · have he' : l' ≠ [] := by
      intro hnil
      apply he
      apply List.eq_nil_of_length_eq_zero
      rw [hlen, hnil]
      rfl
    by_cases hk : k = 0
    · rw [if_pos (Or.inr hk), if_pos (Or.inr hk)]
    · rw [if_neg (by simp [he, hk]), if_neg (by simp [he', hk])]
      apply dcgAux_relevant_congr
      rw [List.map_take, List.map_take, h]

end Metrics

/-- C5: mean_average_precision is the arithmetic mean of the per-query
average precision over exactly the queries whose judgment set is
non-empty; queries with an empty or absent judgment set contribute to
neither the sum nor the divisor, and the result is 0 when no query has a
non-empty judgment set. -/
theorem C5_map_mean_over_nonempty_judgments
    (all_results : List (String × List Metrics.SearchResult))
    (relevance_judgments : String → Finset String) :
    (Metrics.mean_average_precision all_results relevance_judgments =
      if all_results.filter (fun q => decide (relevance_judgments q.1 ≠ ∅)) = [] then 0
      else ((all_results.filter (fun q => decide (relevance_judgments q.1 ≠ ∅))).map
          (fun q => Metrics.average_precision
            (Metrics.markResults q.2 (relevance_judgments q.1))
            (relevance_judgments q.1).card)).sum /
        (((all_results.filter (fun q => decide (relevance_judgments q.1 ≠ ∅))).length : ℚ))) ∧
    ((∀ q ∈ all_results, relevance_judgments q.1 = ∅) →
      Metrics.mean_average_precision all_results relevance_judgments = 0) := by
  constructor
  · unfold Metrics.mean_average_precision
    by_cases he : all_results = []
    · rw [if_pos he, if_pos (by rw [he]; rfl)]
    · rw [if_neg he]
      rw [Metrics.mapAux_eq_filter_map]
      by_cases hf : all_results.filter (fun q => decide (relevance_judgments q.1 ≠ ∅)) = []
      · rw [if_pos (by rw [hf]; rfl), if_pos hf]
      · have hmapne : (all_results.filter
            (fun q => decide (relevance_judgments q.1 ≠ ∅))).map
            (fun q => Metrics.average_precision
              (Metrics.markResults q.2 (relevance_judgments q.1))
              (relevance_judgments q.1).card) ≠ [] := by
          intro hm
          exact hf (List.map_eq_nil_iff.mp hm)
        rw [if_neg hmapne, if_neg hf, List.length_map]
  · intro hall
    unfold Metrics.mean_average_precision
    by_cases he : all_results = []
    · rw [if_pos he]
    · rw [if_neg he]
      have hnil : Metrics.mapAux relevance_judgments all_results = [] := by
        rw [Metrics.mapAux_eq_filter_map]
        have : all_results.filter (fun q => decide (relevance_judgments q.1 ≠ ∅)) = [] := by
          rw [List.filter_eq_nil]
          intro q hq
          simp [hall q hq]
        rw [this]
        rfl
      rw [if_pos hnil]

/-- C5 witness: the theorem instantiated on two queries, one with a
non-empty judgment set and one with an empty set, and its second clause
instantiated on a single query with an empty judgment set. -/
theorem C5_map_mean_over_nonempty_judgments_witness :
    (Metrics.mean_average_precision
      [("q1", [{ doc_id := "a", score := 1, rank := 1 }]),
       ("q2", [{ doc_id := "b", score := 1, rank := 1 }])]
      (fun q => if q = "q1" then {"a"} else ∅) =
      if ([("q1", [({ doc_id := "a", score := 1, rank := 1 } : Metrics.SearchResult)]),
          ("q2", [{ doc_id := "b", score := 1, rank := 1 }])].filter
            (fun q => decide ((if q.1 = "q1" then ({"a"} : Finset String) else ∅) ≠ ∅))) = []
      then 0
      else (([("q1", [({ doc_id := "a", score := 1, rank := 1 } : Metrics.SearchResult)]),
          ("q2", [{ doc_id := "b", score := 1, rank := 1 }])].filter
            (fun q => decide ((if q.1 = "q1" then ({"a"} : Finset String) else ∅) ≠ ∅))).map
          (fun q => Metrics.average_precision
            (Metrics.markResults q.2 (if q.1 = "q1" then {"a"} else ∅))
            (if q.1 = "q1" then ({"a"} : Finset String) else ∅).card)).sum /
        ((([("q1", [({ doc_id := "a", score := 1, rank := 1 } : Metrics.SearchResult)]),
          ("q2", [{ doc_id := "b", score := 1, rank := 1 }])].filter
            (fun q => decide ((if q.1 = "q1" then ({"a"} : Finset String) else ∅) ≠ ∅))).length : ℚ))) ∧
    Metrics.mean_average_precision
      [("q2", [({ doc_id := "b", score := 1, rank := 1 } : Metrics.SearchResult)])]
      (fun _ => ∅) = 0 :=
  ⟨(C5_map_mean_over_nonempty_judgments _ _).1,
   (C5_map_mean_over_nonempty_judgments
      [("q2", [{ doc_id := "b", score := 1, rank := 1 }])] (fun _ => ∅)).2
     (fun q _ => rfl)⟩

/-- C7: mean_reciprocal_rank reads the stored rank field of the first
relevant result — it returns the reciprocal of that field whatever the
element's list position — while discounted_cumulative_gain depends only on
the sequence of relevance flags, discounting by 1-based window position
and ignoring the stored rank fields entirely; the two metrics therefore
draw the rank from different sources whenever stored ranks and positions
disagree. -/
theorem C7_mrr_stored_rank_dcg_position
    (l1 l2 : List Metrics.SearchResult) (x : Metrics.SearchResult)
    (h1 : ∀ y ∈ l1, y.relevant = false) (hx : x.relevant = true)
    (l l' : List Metrics.SearchResult)
    (hrel : l.map (fun r => r.relevant) = l'.map (fun r => r.relevant)) (k : ℕ) :
    Metrics.mean_reciprocal_rank (l1 ++ x :: l2) = 1 / (x.rank : ℚ) ∧
    Metrics.discounted_cumulative_gain l k = Metrics.discounted_cumulative_gain l' k :=
  ⟨Metrics.mrr_append_first_relevant l1 x l2 h1 hx,
   Metrics.dcg_relevant_congr l l' hrel k⟩

/-- C7 witness: a relevant result stored at list position 2 but carrying
rank field 3 yields an MRR of 1/3, while two one-element lists whose only
difference is the stored rank field (1 versus 99) have identical DCG. -/
theorem C7_mrr_stored_rank_dcg_position_witness :
    Metrics.mean_reciprocal_rank
      [{ doc_id := "b", score := 1/2, rank := 7, relevant := false },
       { doc_id := "a", score := 9/10, rank := 3, relevant := true }] =
      1 / ((3 : ℕ) : ℚ) ∧
    Metrics.discounted_cumulative_gain
        [{ doc_id := "c", score := 1, rank := 1, relevant := true }] 1 =
      Metrics.discounted_cumulative_gain
        [{ doc_id := "d", score := 2, rank := 99, relevant := true }] 1 :=
  C7_mrr_stored_rank_dcg_position
    [{ doc_id := "b", score := 1/2, rank := 7, relevant := false }] []
    { doc_id := "a", score := 9/10, rank := 3, relevant := true }
    (by decide) (by decide)
    [{ doc_id := "c", score := 1, rank := 1, relevant := true }]
    [{ doc_id := "d", score := 2, rank := 99, relevant := true }]
    (by decide) 1

namespace Runner

lemma countP_isSome_add_isNone {α β : Type} (f : α → Option β) (l : List α) :
    l.countP (fun a => (f a).isSome) + l.countP (fun a => (f a).isNone) = l.length := by
  induction l with
  | nil => rfl
  | cons a as ih =>
      rw [List.countP_cons, List.countP_cons, List.length_cons]
      cases h : f a <;> simp [h] <;> omega

lemma run_all_tasks_none_eq (baseline_agent cs_agent : Task → Except String AgentRunRecord)
    (tasks : List Task) :
    run_all_tasks baseline_agent cs_agent tasks none =
      tasks.filterMap (fun t => (runTaskWithAgents baseline_agent cs_agent t).toOption) := rfl

lemma run_all_tasks_none_length
    (baseline_agent cs_agent : Task → Except String AgentRunRecord)
    (tasks : List Task)
    (hone : tasks.countP
      (fun t => ((runTaskWithAgents baseline_agent cs_agent t).toOption).isNone) = 1) :
    (run_all_tasks baseline_agent cs_agent tasks none).length = tasks.length - 1 := by
  rw [run_all_tasks_none_eq, List.length_filterMap_eq_countP]
  have hsum := countP_isSome_add_isNone
    (fun t => (runTaskWithAgents baseline_agent cs_agent t).toOption) tasks
  omega

lemma generate_summary_report_total (results : List ComparisonMetrics)
    (hne : results ≠ []) :
    ∃ s, generate_summary_report results = some s ∧ s.total_tasks = results.length := by
  unfold generate_summary_report
  rw [if_neg hne]
  exact ⟨_, rfl, rfl⟩

end Runner

/-- C4: for a batch in which exactly one task's evaluation raises (modelled
as the Except-valued per-task evaluation yielding an error for exactly one
task of the list), run_all_tasks neither propagates the exception nor
aborts the remaining tasks — its output is exactly the successful
comparison records in order — the summary report is computed over those
N - 1 records, and (as soon as there is at least one surviving record) the
report's stated task count equals N - 1, not N. -/
theorem C4_single_failure_is_skipped
    (baseline_agent cs_agent : Runner.Task → Except String Runner.AgentRunRecord)
    (tasks : List Runner.Task)
    (hone : tasks.countP
      (fun t => ((Runner.runTaskWithAgents baseline_agent cs_agent t).toOption).isNone) = 1) :
    Runner.run_all_tasks baseline_agent cs_agent tasks none =
      tasks.filterMap
        (fun t => (Runner.runTaskWithAgents baseline_agent cs_agent t).toOption) ∧
    (Runner.run_all_tasks baseline_agent cs_agent tasks none).length = tasks.length - 1 ∧
    (2 ≤ tasks.length →
      ∃ s, Runner.generate_summary_report
          (Runner.run_all_tasks baseline_agent cs_agent tasks none) = some s ∧
        s.total_tasks = tasks.length - 1) := by
  have hlen := Runner.run_all_tasks_none_length baseline_agent cs_agent tasks hone
  refine ⟨Runner.run_all_tasks_none_eq baseline_agent cs_agent tasks, hlen, ?_⟩
  intro htwo
  have hne : Runner.run_all_tasks baseline_agent cs_agent tasks none ≠ [] := by
    intro hnil
    rw [hnil] at hlen
    simp at hlen
    omega
  obtain ⟨s, hs, hcount⟩ := Runner.generate_summary_report_total _ hne
  exact ⟨s, hs, by rw [hcount, hlen]⟩

/-- Concrete failing baseline agent for the C4 witness: it raises on the
task with id t1 and returns a fixed run record otherwise. -/
def demoBaselineAgent : Runner.Task → Except String Runner.AgentRunRecord :=
  fun t => if t.id = "t1" then Except.error "agent failure"
    else Except.ok
      { total_calls := 4, total_output_tokens := 100, total_duration := 10,
        precision := 1/2, «recall» := 1/2, success := true }

/-- Concrete succeeding hybrid agent for the C4 witness. -/
def demoCsAgent : Runner.Task → Except String Runner.AgentRunRecord :=
  fun _ => Except.ok
    { total_calls := 1, total_output_tokens := 10, total_duration := 2,
      precision := 3/4, «recall» := 1, success := true }

/-- Concrete two-task batch for the C4 witness; the first task fails. -/
def demoTasks : List Runner.Task :=
  [{ id := "t1" }, { id := "t2", category := some "search", difficulty := some "easy" }]

/-- C4 witness: the theorem instantiated on the concrete two-task batch in
which exactly the first task's baseline agent call raises, discharging the
exactly-one-failure hypothesis and the minimum-size bound by computation. -/
theorem C4_single_failure_is_skipped_witness :
    demoTasks.countP
      (fun t => ((Runner.runTaskWithAgents demoBaselineAgent demoCsAgent t).toOption).isNone) = 1 ∧
    Runner.run_all_tasks demoBaselineAgent demoCsAgent demoTasks none =
      demoTasks.filterMap
        (fun t => (Runner.runTaskWithAgents demoBaselineAgent demoCsAgent t).toOption) ∧
    (Runner.run_all_tasks demoBaselineAgent demoCsAgent demoTasks none).length =
      demoTasks.length - 1 ∧
    (∃ s, Runner.generate_summary_report
        (Runner.run_all_tasks demoBaselineAgent demoCsAgent demoTasks none) = some s ∧
      s.total_tasks = demoTasks.length - 1) :=
  ⟨by decide,
   (C4_single_failure_is_skipped demoBaselineAgent demoCsAgent demoTasks (by decide)).1,
   (C4_single_failure_is_skipped demoBaselineAgent demoCsAgent demoTasks (by decide)).2.1,
   (C4_single_failure_is_skipped demoBaselineAgent demoCsAgent demoTasks (by decide)).2.2
     (by decide)⟩

/-- C1 counterexample: the claimed construction-time rejection of
malformed rankings does not exist.  SearchResult is a plain record and
evaluate_query performs no validation, so both a ranking whose stored rank
disagrees with the list position (a single result carrying rank 3) and a
ranking with duplicate identifiers are accepted silently, and the bundle
is computed from the caller-supplied values as-is: the first yields
MRR = 1/3 (trusting the bogus rank field), the second counts the
duplicated identifier twice in precision at 5. -/
theorem C1_counterexample :
    Metrics.ranksFrom [{ doc_id := "a", score := 9/10, rank := 3 }] 1 = false ∧
    (Metrics.evaluate_query [{ doc_id := "a", score := 9/10, rank := 3 }] {"a"}).mrr = 1/3 ∧
    ([({ doc_id := "a", score := 1, rank := 1 } : Metrics.SearchResult),
      { doc_id := "a", score := 1/2, rank := 2 }].map
        (fun r => r.doc_id)).Nodup = False ∧
    (Metrics.evaluate_query
        [{ doc_id := "a", score := 1, rank := 1 },
         { doc_id := "a", score := 1/2, rank := 2 }] {"a"}).precision_at_5 = 2/5 := by
  refine ⟨rfl, ?_, ?_, ?_⟩
  · show Metrics.mean_reciprocal_rank
        (Metrics.markResults [{ doc_id := "a", score := 9/10, rank := 3 }] {"a"}) = 1/3
    norm_num [Metrics.markResults, Metrics.mean_reciprocal_rank]
  · simp
  · show Metrics.precision_at_k
        (Metrics.markResults
          [{ doc_id := "a", score := 1, rank := 1 },
           { doc_id := "a", score := 1/2, rank := 2 }] {"a"}) 5 = 2/5
    norm_num [Metrics.markResults, Metrics.precision_at_k, List.countP_cons]
    simp

/-- C1 (amended): no validation failure is ever raised; for every result
list — well-formed or not — and judgment set, evaluate_query succeeds and
computes the bundle from the caller-supplied rank fields, so the MRR of a
list whose first judged-relevant result stores rank r is 1/r regardless of
that result's actual position. -/
theorem C1_amended_no_validation
    (l1 l2 : List Metrics.SearchResult) (x : Metrics.SearchResult) (S : Finset String)
    (h1 : ∀ y ∈ l1, y.doc_id ∉ S) (hx : x.doc_id ∈ S) :
    (Metrics.evaluate_query (l1 ++ x :: l2) S).mrr = 1 / (x.rank : ℚ) := by
  have hmark : Metrics.markResults (l1 ++ x :: l2) S =
      Metrics.markResults l1 S ++
        ({ doc_id := x.doc_id, score := x.score, rank := x.rank,
           relevant := decide (x.doc_id ∈ S) } : Metrics.SearchResult) ::
        Metrics.markResults l2 S := by
    unfold Metrics.markResults
    rw [List.map_append, List.map_cons]
  show Metrics.mean_reciprocal_rank (Metrics.markResults (l1 ++ x :: l2) S) = 1 / (x.rank : ℚ)
  rw [hmark]
  have h1' : ∀ y ∈ Metrics.markResults l1 S, y.relevant = false := by
    intro y hy
    obtain ⟨y0, hy0, rfl⟩ := List.mem_map.mp hy
    simp [h1 y0 hy0]
  exact Metrics.mrr_append_first_relevant _ _ _ h1' (by simp [hx])

/-- C1 witness: the amended theorem instantiated on a malformed list whose
relevant result sits at position 2 but stores rank 5; evaluate_query
accepts it and returns MRR = 1/5. -/
theorem C1_amended_no_validation_witness :
    (Metrics.evaluate_query
        [{ doc_id := "b", score := 1/2, rank := 7 },
         { doc_id := "a", score := 9/10, rank := 5 }] {"a"}).mrr = 1 / ((5 : ℕ) : ℚ) :=
  C1_amended_no_validation [{ doc_id := "b", score := 1/2, rank := 7 }] []
    { doc_id := "a", score := 9/10, rank := 5 } {"a"} (by decide) (by decide)
